import Mathlib

/-!
Shallow embedding of the natural-language-to-SQL pipeline of this repository
(query sanitizer, query executors, result presenter, error classifier and
schema introspection) from `main.py`, `app.py` and `db_utils.py`.

Python strings are modelled as `List Char`; `str.strip` and the regex class
`\s` are modelled over the ASCII whitespace characters; `str.upper` is
`Char.toUpper` pointwise.  The regex-based steps are modelled by direct
recursion that reproduces the scanning behaviour of `re.sub` / `re.search`
(leftmost, non-overlapping, no rescanning of spliced text).
-/

/-- ASCII backtick, built by code point. -/
def backtick : Char := Char.ofNat 96

/-- ASCII single quote, built by code point. -/
def squote : Char := Char.ofNat 39

/-- Semicolon, the statement separator the sanitizer and executors police. -/
def semi : Char := ';'

/-- Python whitespace (`str.strip`, regex `\s`) restricted to ASCII:
space, tab, newline, carriage return, vertical tab, form feed. -/
def isWs (c : Char) : Bool :=
  c == ' ' || c == '\t' || c == '\n' || c == '\r' || c == Char.ofNat 11 || c == Char.ofNat 12

/-- `str.upper` for ASCII text. -/
def upC (l : List Char) : List Char := l.map Char.toUpper

/-- The character list of a string literal. -/
def chars (s : String) : List Char := s.toList

/-- Python `str.lstrip` over ASCII whitespace. -/
def stripL (l : List Char) : List Char := l.dropWhile isWs

/-- Python `str.rstrip` over ASCII whitespace. -/
def stripR (l : List Char) : List Char := (l.reverse.dropWhile isWs).reverse

/-- Python `str.strip` over ASCII whitespace. -/
def strip (l : List Char) : List Char := stripR (stripL l)

/-- Advance to the next newline, keeping it, as the `re.MULTILINE` dollar
anchor does for `--.*?$`: a line-comment match ends right before the
newline. -/
def dropUntilNl : List Char → List Char
  | [] => []
  | c :: rest => if c = '\n' then c :: rest else dropUntilNl rest

/-- Fuel-driven core of `re.sub(r'--.*?$', '', query, flags=re.MULTILINE)`
in `clean_sql_query`: each `--` is deleted together with the rest of its
line and scanning resumes at the newline.  Fuel at least `length` makes the
fuel-0 clause unreachable. -/
def rlcFuel : Nat → List Char → List Char
  | 0, l => l
  | _ + 1, [] => []
  | f + 1, c :: rest =>
    if c = '-' ∧ rest.head? = some '-' then rlcFuel f (dropUntilNl rest.tail)
    else c :: rlcFuel f rest

/-- Single-line SQL comment removal (`--` to end of line), step 1 of
`clean_sql_query` in both `main.py` and `app.py`. -/
def removeLineComments (l : List Char) : List Char := rlcFuel l.length l

/-- Characters following the first `*/` of the list, if any: how the lazy
regex `/\*.*?\*/` locates the closing delimiter of a block comment. -/
def afterClose : List Char → Option (List Char)
  | [] => none
  | c :: rest => if c = '*' ∧ rest.head? = some '/' then some rest.tail else afterClose rest

/-- Fuel-driven core of `re.sub(r'/\*.*?\*/', '', query, flags=re.DOTALL)`:
a `/*` with a later `*/` is deleted up to the first such `*/` (lazy match),
scanning resumes after it and never revisits the spliced-together text; a
`/*` with no closing `*/` is kept and scanning moves on by one character. -/
def rbcFuel : Nat → List Char → List Char
  | 0, l => l
  | _ + 1, [] => []
  | f + 1, c :: rest =>
    if c = '/' ∧ rest.head? = some '*' then
      match afterClose rest.tail with
      | some rest' => rbcFuel f rest'
      | none => c :: rbcFuel f rest
    else c :: rbcFuel f rest

/-- Block comment removal (`/* ... */`), step 2 of `clean_sql_query`. -/
def removeBlockComments (l : List Char) : List Char := rbcFuel l.length l

/-- The keyword the sanitizer and the `main.py` executor look for. -/
def selectChars : List Char := ['S', 'E', 'L', 'E', 'C', 'T']

/-- Boolean list-prefix test (Python `str.startswith` on character lists). -/
def isPre : List Char → List Char → Bool
  | [], _ => true
  | _ :: _, [] => false
  | a :: as, b :: bs => a == b && isPre as bs

/-- Boolean substring test (Python `in` on character lists). -/
def hasSub (p : List Char) : List Char → Bool
  | [] => isPre p []
  | l@(_ :: rest) => isPre p l || hasSub p rest

/-- `text.upper().startswith('SELECT')`. -/
def startsSelect (l : List Char) : Bool := isPre selectChars (upC l)

/-- `'SELECT' in text.upper()`. -/
def containsSelect (l : List Char) : Bool := hasSub selectChars (upC l)

/-- Does the regex `SELECT\s+.*` (IGNORECASE, DOTALL) match at the head of
`l`?  It needs the six letters of SELECT followed by at least one
whitespace character; `.*` then extends to the end of the string. -/
def selectWsAt (l : List Char) : Bool :=
  isPre selectChars (upC l) &&
    (match (l.drop 6).head? with
     | some c => isWs c
     | none => false)

/-- `re.search(r'SELECT\s+.*', query, re.IGNORECASE | re.DOTALL)`: the
suffix starting at the leftmost position where the pattern matches, which
is exactly `.group(0)`. -/
def findSelectWs : List Char → Option (List Char)
  | [] => none
  | c :: rest => if selectWsAt (c :: rest) then some (c :: rest) else findSelectWs rest

/-- Failure modes of `clean_sql_query`.  `noSelectFound` is the
`raise ValueError("Only SELECT queries are allowed")` branch (the spec's
`NoSelectFound`: no SELECT occurs anywhere); `noValidSelect` is the
`raise ValueError("No valid SELECT statement found in query")` branch
(SELECT occurs but `SELECT\s+` matches nowhere). -/
inductive SanErr where
  | noSelectFound
  | noValidSelect
deriving DecidableEq, Repr

/-- Steps 1-3 of `clean_sql_query` (identical in `main.py` and `app.py`):
remove line comments, then block comments, then every backtick. -/
def preprocess (q : List Char) : List Char :=
  (removeBlockComments (removeLineComments q)).filter (fun c => c != backtick)

/-- The SELECT gate of `clean_sql_query` (identical in `main.py` and
`app.py`): keep the text if it already starts with SELECT after trimming,
otherwise recover the suffix from the first `SELECT\s+` match, otherwise
fail. -/
def extractSelect (q3 : List Char) : Except SanErr (List Char) :=
  if startsSelect (strip q3) then Except.ok q3
  else if containsSelect q3 then
    match findSelectWs q3 with
    | some m => Except.ok m
    | none => Except.error SanErr.noValidSelect
  else Except.error SanErr.noSelectFound

/-- The semicolon stage shared verbatim by `main.py`'s `clean_sql_query`
(lines 162-171) and `main.py`'s `execute_sql_query` (lines 256-263): strip,
drop one trailing semicolon, and if any semicolon remains keep only the
text before the first one, stripped again. -/
def normalizeSemi (l : List Char) : List Char :=
  let q5 := strip l
  let q6 := if q5.getLast? = some semi then q5.dropLast else q5
  if q6.contains semi then strip (q6.takeWhile (fun c => c != semi)) else q6

/-- `main.py` lines 138-172, `clean_sql_query`. -/
def clean_sql_query (q : List Char) : Except SanErr (List Char) :=
  (extractSelect (preprocess q)).map normalizeSemi

/-- `app.py` lines 63-92, `clean_sql_query`: same comment, backtick and
SELECT logic, but the final stage strips and appends a trailing semicolon
when one is missing, and never truncates at interior semicolons. -/
def app_clean_sql_query (q : List Char) : Except SanErr (List Char) :=
  (extractSelect (preprocess q)).map (fun q4 =>
    let q5 := strip q4
    if q5.getLast? = some semi then q5 else q5 ++ [semi])

/-- Failure modes of `main.py`'s `execute_sql_query` before any database
contact. -/
inductive ExecErr where
  | invalidQuery
  | rejectedStatement
deriving DecidableEq, Repr

/-- `main.py` lines 241-272, `execute_sql_query`, up to the point where the
statement is handed to the database: emptiness validation, the semicolon
normalization, and the independent case-insensitive SELECT re-check
(`raise ValueError("Only SELECT queries are allowed")` when it fails);
`.ok` carries the exact text that is executed. -/
def main_execute_sql_query (q : List Char) : Except ExecErr (List Char) :=
  if q = [] then Except.error ExecErr.invalidQuery
  else
    let q3 := normalizeSemi q
    if startsSelect q3 then Except.ok q3 else Except.error ExecErr.rejectedStatement

/-- Failure modes of `db_utils.execute_sql_query` before any database
contact. -/
inductive DbErr where
  | invalidQuery
  | multipleQueries
deriving DecidableEq, Repr

/-- One trailing semicolon stripped, as in `db_utils.execute_sql_query`. -/
def dropTrailSemi (l : List Char) : List Char :=
  if l.getLast? = some semi then l.dropLast else l

/-- `query.strip().upper().startswith(('INSERT', 'UPDATE', 'DELETE'))`. -/
def isWriteQuery (l : List Char) : Bool :=
  isPre (chars "INSERT") (upC (strip l)) || isPre (chars "UPDATE") (upC (strip l)) ||
    isPre (chars "DELETE") (upC (strip l))

/-- What a `db_utils.execute_sql_query` call does once it reaches the
database: the exact text executed, whether the transaction is committed,
and whether the fetched rows are replaced by the one-element
`"Query affected N rows"` message (the latter two happen exactly for
INSERT/UPDATE/DELETE-prefixed text). -/
structure DbRun where
  sql : List Char
  commit : Bool
  rowcountMessage : Bool
deriving DecidableEq, Repr

/-- `db_utils.py` lines 116-164, `execute_sql_query`: input validation, one
trailing semicolon stripped, any remaining semicolon rejected
(`query.count(';') > 0`), then the query is executed with no SELECT-only
restriction of any kind. -/
def db_execute_sql_query (q : List Char) : Except DbErr DbRun :=
  if q = [] then Except.error DbErr.invalidQuery
  else
    let q2 := dropTrailSemi (strip q)
    if q2.contains semi then Except.error DbErr.multipleQueries
    else Except.ok ⟨q2, isWriteQuery q2, isWriteQuery q2⟩

/-- A cell of a result set: `num` for values pandas reads into a numeric
dtype, `txt` for everything else. -/
inductive Val where
  | num (n : Int)
  | txt (s : List Char)
deriving DecidableEq, Repr

def isNumVal : Val → Bool
  | Val.num _ => true
  | Val.txt _ => false

/-- The DataFrame shape `on_message` inspects: column names and rows. -/
structure ResultSet where
  cols : List (List Char)
  rows : List (List Val)
deriving DecidableEq, Repr

/-- `pd.api.types.is_numeric_dtype(df.iloc[:, 1])`: the second column holds
a numeric value in every row. -/
def secondColNumeric (rs : ResultSet) : Bool :=
  rs.rows.all (fun r =>
    match (r.drop 1).head? with
    | some v => isNumVal v
    | none => false)

/-- `app.py` lines 224-236, `on_message`: a bar chart is produced exactly
when the frame is non-empty, has exactly two columns, strictly more than
one and at most fifteen rows, and a numeric second column. -/
def chartEligible (rs : ResultSet) : Bool :=
  if rs.rows.length = 0 then false
  else if rs.cols.length = 2 && decide (1 < rs.rows.length) && decide (rs.rows.length ≤ 15) then
    secondColNumeric rs
  else false

/-- Python regex `\w` over ASCII. -/
def isWordChar (c : Char) : Bool := c.isAlpha || c.isDigit || c == '_'

/-- The literal opener `relation "` of the classifier's pattern. -/
def relOpen : List Char := chars "relation \""

/-- The literal closer `" does not exist` of the classifier's pattern. -/
def dneClose : List Char := chars "\" does not exist"

/-- Match `relation \"(\w+)\" does not exist` at the head of `l` and return
the captured table name: after the literal opener, `\w+` takes the maximal
nonempty run of word characters (no backtracking can help, since `"` is not
a word character), and the literal closer must follow directly. -/
def matchRelAt (l : List Char) : Option (List Char) :=
  if isPre relOpen l then
    let rest := l.drop relOpen.length
    let name := rest.takeWhile isWordChar
    if name ≠ [] ∧ isPre dneClose (rest.drop name.length) then some name else none
  else none

/-- `re.search(r'relation \"(\w+)\" does not exist', error_msg)`: the
captured name of the leftmost match. -/
def findRel : List Char → Option (List Char)
  | [] => none
  | c :: rest =>
    match matchRelAt (c :: rest) with
    | some n => some n
    | none => findRel rest

/-- `sep.join(pieces)` on character lists. -/
def joinSep (s : List Char) : List (List Char) → List Char
  | [] => []
  | [x] => x
  | x :: y :: rest => x ++ s ++ joinSep s (y :: rest)

/-- `main.py` lines 335-363 (the ValueError handler of `process_query`):
when the error text contains `relation` and `does not exist` and the regex
captures a table name, the message is replaced by
`Table '<name>' does not exist. ` plus, when the live table list is
non-empty, `Available tables: <comma-separated list>`; otherwise the
original message is passed through unmodified. -/
def classify_execution_error (msg : List Char) (tables : List (List Char)) : List Char :=
  if hasSub (chars "relation") msg && hasSub (chars "does not exist") msg then
    match findRel msg with
    | some name =>
      let base := chars "Table " ++ [squote] ++ name ++ [squote] ++ chars " does not exist. "
      if tables = [] then base
      else base ++ chars "Available tables: " ++ joinSep (chars ", ") tables
    | none => msg
  else msg

/-- One row of the catalog query of `db_utils.get_table_info`
(`information_schema.columns`): table, column, data type, default
expression and `is_nullable` flag, in `(table_name, ordinal_position)`
order. -/
structure ColRow where
  table : List Char
  column : List Char
  dtype : List Char
  colDefault : Option (List Char)
  nullable : List Char
deriving DecidableEq, Repr

/-- One foreign-key triple of the second query of
`db_utils.get_table_info`. -/
structure FkRow where
  table : List Char
  column : List Char
  refTable : List Char
  refColumn : List Char
deriving DecidableEq, Repr

/-- `f"{column_name} {data_type} {nullable} {default}".strip()` with
`nullable = "NULL" if is_nullable == "YES" else "NOT NULL"` and
`default = f"DEFAULT {column_default}" if column_default else ""`. -/
def formatCol (r : ColRow) : List Char :=
  let nullS := if r.nullable = chars "YES" then chars "NULL" else chars "NOT NULL"
  let defS := match r.colDefault with
    | some d => if d = [] then [] else chars "DEFAULT " ++ d
    | none => []
  strip (r.column ++ [' '] ++ r.dtype ++ [' '] ++ nullS ++ [' '] ++ defS)

/-- Insertion-ordered grouping of formatted column lines by table name, as
the Python dict build in `db_utils.get_table_info` produces it. -/
def addCol (acc : List (List Char × List (List Char))) (t : List Char) (c : List Char) :
    List (List Char × List (List Char)) :=
  if acc.any (fun p => p.1 = t) then
    acc.map (fun p => if p.1 = t then (p.1, p.2 ++ [c]) else p)
  else acc ++ [(t, [c])]

def groupCols (rows : List ColRow) : List (List Char × List (List Char)) :=
  rows.foldl (fun acc r => addCol acc r.table (formatCol r)) []

/-- `f"CREATE TABLE {t} (\n  " + ",\n  ".join(cols) + "\n);"`, the block
shape used by both `get_table_info` implementations. -/
def tableBlock (t : List Char) (cols : List (List Char)) : List Char :=
  chars "CREATE TABLE " ++ t ++ chars " (" ++ ['\n'] ++ chars "  " ++
    joinSep (chars "," ++ ['\n'] ++ chars "  ") cols ++ ['\n'] ++ chars ");"

/-- `f"-- {table}.{column} -> {ref_table}.{ref_column}"`. -/
def fkLine (fk : FkRow) : List Char :=
  chars "-- " ++ fk.table ++ chars "." ++ fk.column ++ chars " -> " ++
    fk.refTable ++ chars "." ++ fk.refColumn

/-- `db_utils.py` lines 23-114, `get_table_info`, as a function of the two
catalog query results: the explicit no-table sentinel when the column query
returns nothing, else the CREATE TABLE blocks followed by the foreign-key
annotation block, joined by blank lines. -/
def db_get_table_info (rows : List ColRow) (fks : List FkRow) : List Char :=
  if rows = [] then chars "No tables found in the database."
  else
    let blocks := (groupCols rows).map (fun p => tableBlock p.1 p.2)
    let blocks2 := if fks = [] then blocks
      else blocks ++ (['\n'] ++ chars "-- Foreign Key Relationships:") :: fks.map fkLine
    joinSep (['\n'] ++ ['\n']) blocks2

/-- One table's block in `main.py`'s `get_table_info`: the column
descriptions are `f"{col[0]} {col[1]}"` for each (name, type) pair. -/
def mainTableBlock (colsOf : List Char → List (List Char × List Char)) (t : List Char) :
    List Char :=
  tableBlock t ((colsOf t).map (fun p => p.1 ++ [' '] ++ p.2))

/-- `main.py` lines 48-89, `get_table_info`, as a function of the catalog
table list and a per-table column lookup: every non-system table is
rendered — no hidden-table filtering and no empty-catalog sentinel. -/
def main_get_table_info (tables : List (List Char))
    (colsOf : List Char → List (List Char × List Char)) : List Char :=
  joinSep (['\n'] ++ ['\n']) (tables.map (mainTableBlock colsOf))

/-- `hidden_tables = ['users']` in `main.py`'s `get_tables_and_columns`. -/
def hiddenTables : List (List Char) := [chars "users"]

/-- `main.py` lines 91-136, `get_tables_and_columns`: the UI listing of
(table, column names) pairs, with every table of the hidden set skipped. -/
def get_tables_and_columns (tables : List (List Char))
    (colsOf : List Char → List (List Char)) : List (List Char × List (List Char)) :=
  tables.filterMap (fun t => if t ∈ hiddenTables then none else some (t, colsOf t))

/-! ### Characterization lemmas for the Boolean string primitives -/

theorem isPre_iff (a b : List Char) : isPre a b = true ↔ a <+: b := by
  induction a generalizing b with
  | nil => simp [isPre]
  | cons x xs ih =>
    cases b with
    | nil => simp [isPre]
    | cons y ys => simp [isPre, ih, List.cons_prefix_cons, Bool.and_eq_true, beq_iff_eq]

theorem hasSub_iff (p l : List Char) : hasSub p l = true ↔ p <:+: l := by
  induction l with
  | nil => simp [hasSub, isPre_iff]
  | cons c rest ih =>
    rw [hasSub]
    simp [isPre_iff, ih, List.infix_cons_iff]

/-! ### Strip lemmas -/

theorem stripL_suffix (l : List Char) : stripL l <:+ l := List.dropWhile_suffix isWs

theorem stripR_pre (l : List Char) : stripR l <+: l := by
  have h : (l.reverse.dropWhile isWs).reverse <+: l.reverse.reverse :=
    List.reverse_prefix.mpr (List.dropWhile_suffix isWs)
  simpa [stripR] using h

theorem strip_within (l : List Char) : strip l <:+: l :=
  ((stripR_pre (stripL l)).isInfix).trans (stripL_suffix l).isInfix

theorem strip_subset {c : Char} {l : List Char} (h : c ∈ strip l) : c ∈ l :=
  (strip_within l).subset h

theorem dropWhile_eq_self_of_none {p : Char → Bool} {l : List Char}
    (h : ∀ c ∈ l, p c = false) : l.dropWhile p = l := by
  cases l with
  | nil => rfl
  | cons x xs => simp [List.dropWhile_cons, h x (by simp)]

/-! ### Facts about the SELECT keyword's characters -/

theorem selProps {a : List Char} (h : upC a = selectChars) :
    ∀ c ∈ a, isWs c = false ∧ c ≠ semi ∧ c ≠ backtick := by
  intro c hc
  have hup : c.toUpper ∈ selectChars := by
    rw [← h]; exact List.mem_map_of_mem Char.toUpper hc
  refine ⟨?_, ?_, ?_⟩
  · cases hw : isWs c with
    | false => rfl
    | true =>
      exfalso
      have h6 : c = ' ' ∨ c = '\t' ∨ c = '\n' ∨ c = '\r' ∨ c = Char.ofNat 11 ∨
          c = Char.ofNat 12 := by
        simpa [isWs, or_assoc] using hw
      rcases h6 with rfl | rfl | rfl | rfl | rfl | rfl <;> exact absurd hup (by decide)
  · rintro rfl; exact absurd hup (by decide)
  · rintro rfl; exact absurd hup (by decide)

theorem selPre_decomp {l : List Char} (h : selectChars <+: upC l) :
    ∃ a r, l = a ++ r ∧ upC a = selectChars := by
  refine ⟨l.take selectChars.length, l.drop selectChars.length,
    (List.take_append_drop _ l).symm, ?_⟩
  have h1 := List.prefix_iff_eq_take.mp h
  rw [upC] at h1 ⊢
  rw [List.map_take]
  exact h1.symm

theorem stripL_append_sel {a r : List Char} (ha : upC a = selectChars) :
    stripL (a ++ r) = a ++ r := by
  cases a with
  | nil => exact absurd ha (by decide)
  | cons x xs =>
    have hx : isWs x = false := (selProps ha x (by simp)).1
    simp [stripL, List.dropWhile_cons, hx]

theorem stripR_append {a r : List Char} (ha : ∀ c ∈ a, isWs c = false) :
    stripR (a ++ r) = a ++ stripR r := by
  have hrev : a.reverse.dropWhile isWs = a.reverse :=
    dropWhile_eq_self_of_none (fun c hc => ha c (List.mem_reverse.mp hc))
  rw [stripR, List.reverse_append, List.dropWhile_append]
  by_cases he : (r.reverse.dropWhile isWs).isEmpty
  · rw [if_pos he, hrev, List.reverse_reverse]
    have hr0 : stripR r = [] := by
      rw [stripR, List.isEmpty_iff.mp he, List.reverse_nil]
    rw [hr0, List.append_nil]
  · rw [if_neg he, List.reverse_append, List.reverse_reverse, stripR]

theorem strip_append_sel {a r : List Char} (ha : upC a = selectChars) :
    strip (a ++ r) = a ++ stripR r := by
  rw [strip, stripL_append_sel ha, stripR_append (fun c hc => (selProps ha c hc).1)]

theorem selPre_strip {l : List Char} (h : selectChars <+: upC l) :
    selectChars <+: upC (strip l) := by
  obtain ⟨a, r, rfl, ha⟩ := selPre_decomp h
  rw [strip_append_sel ha, upC, List.map_append]
  rw [upC] at ha
  rw [ha]
  exact List.prefix_append _ _

/-! ### Lemmas about the semicolon stage -/

theorem afterSemi_no_semi (q6 : List Char) :
    semi ∉ (if q6.contains semi then strip (q6.takeWhile (fun c => c != semi)) else q6) := by
  by_cases hc : q6.contains semi
  · rw [if_pos hc]
    intro hmem
    have h2 := List.mem_takeWhile_imp (strip_subset hmem)
    simp at h2
  · rw [if_neg hc]
    intro hmem
    exact hc (List.elem_iff.mpr hmem)

theorem afterSemi_subset {c : Char} (q6 : List Char)
    (h : c ∈ (if q6.contains semi then strip (q6.takeWhile (fun c => c != semi)) else q6)) :
    c ∈ q6 := by
  by_cases hc : q6.contains semi
  · rw [if_pos hc] at h
    exact (List.takeWhile_sublist _).subset (strip_subset h)
  · rwa [if_neg hc] at h

theorem dropTrail_subset {c : Char} (q5 : List Char)
    (h : c ∈ (if q5.getLast? = some semi then q5.dropLast else q5)) : c ∈ q5 := by
  by_cases hl : q5.getLast? = some semi
  · rw [if_pos hl] at h
    exact (List.dropLast_sublist q5).subset h
  · rwa [if_neg hl] at h

theorem normalizeSemi_no_semi (l : List Char) : semi ∉ normalizeSemi l := by
  simp only [normalizeSemi]
  exact afterSemi_no_semi _

theorem normalizeSemi_subset {c : Char} {l : List Char} (h : c ∈ normalizeSemi l) : c ∈ l := by
  simp only [normalizeSemi] at h
  exact strip_subset (dropTrail_subset _ (afterSemi_subset _ h))

theorem normalizeSemi_selPre {l : List Char} (h : selectChars <+: upC (strip l)) :
    selectChars <+: upC (normalizeSemi l) := by
  obtain ⟨a, r, hm, ha⟩ := selPre_decomp h
  simp only [normalizeSemi]
  have hq6 : ∃ r2,
      (if (strip l).getLast? = some semi then (strip l).dropLast else strip l) = a ++ r2 := by
    by_cases hl : (strip l).getLast? = some semi
    · cases r with
      | nil =>
        exfalso
        rw [hm, List.append_nil] at hl
        exact (selProps ha semi (List.mem_of_getLast?_eq_some hl)).2.1 rfl
      | cons y ys =>
        rw [if_pos hl, hm]
        exact ⟨(y :: ys).dropLast, List.dropLast_append_of_ne_nil _ (by simp)⟩
    · rw [if_neg hl, hm]
      exact ⟨r, rfl⟩
  obtain ⟨r2, hq6⟩ := hq6
  rw [hq6]
  have ha' : a.map Char.toUpper = selectChars := ha
  by_cases hc : (a ++ r2).contains semi
  · rw [if_pos hc]
    have hta : (a ++ r2).takeWhile (fun c => c != semi) =
        a ++ r2.takeWhile (fun c => c != semi) :=
      List.takeWhile_append_of_pos (fun c hc2 => bne_iff_ne.mpr (selProps ha c hc2).2.1)
    rw [hta, strip_append_sel ha, upC, List.map_append, ha']
    exact List.prefix_append _ _
  · rw [if_neg hc, upC, List.map_append, ha']
    exact List.prefix_append _ _

/-! ### Lemmas about the SELECT gate -/

theorem findSelectWs_spec {l m : List Char} (h : findSelectWs l = some m) :
    selectWsAt m = true ∧ m <:+ l := by
  induction l with
  | nil => simp [findSelectWs] at h
  | cons c rest ih =>
    rw [findSelectWs] at h
    by_cases hs : selectWsAt (c :: rest)
    · rw [if_pos hs] at h
      cases h
      exact ⟨hs, List.suffix_refl _⟩
    · rw [if_neg hs] at h
      obtain ⟨h1, h2⟩ := ih h
      exact ⟨h1, h2.trans (List.suffix_cons c rest)⟩

theorem extractSelect_ok {q3 q4 : List Char} (h : extractSelect q3 = Except.ok q4) :
    selectChars <+: upC (strip q4) ∧ ∀ c ∈ q4, c ∈ q3 := by
  rw [extractSelect] at h
  by_cases h1 : startsSelect (strip q3)
  · rw [if_pos h1] at h
    cases h
    exact ⟨(isPre_iff _ _).mp h1, fun c hc => hc⟩
  · rw [if_neg h1] at h
    by_cases h2 : containsSelect q3
    · rw [if_pos h2] at h
      cases hf : findSelectWs q3 with
      | none => rw [hf] at h; cases h
      | some m =>
        rw [hf] at h
        cases h
        obtain ⟨hat, hsuf⟩ := findSelectWs_spec hf
        rw [selectWsAt, Bool.and_eq_true] at hat
        exact ⟨selPre_strip ((isPre_iff _ _).mp hat.1), fun c hc => hsuf.subset hc⟩
    · rw [if_neg h2] at h
      cases h

theorem preprocess_no_backtick (q : List Char) : backtick ∉ preprocess q := by
  intro h
  have h2 := List.of_mem_filter h
  simp at h2

/-! ### Postconditions of `clean_sql_query` -/

theorem clean_ok_iff {q out : List Char} :
    clean_sql_query q = Except.ok out ↔
      ∃ q4, extractSelect (preprocess q) = Except.ok q4 ∧ out = normalizeSemi q4 := by
  rw [clean_sql_query]
  cases h : extractSelect (preprocess q) with
  | ok q4 => simp [Except.map, eq_comm]
  | error e => simp [Except.map]

theorem clean_selPre {q out : List Char} (h : clean_sql_query q = Except.ok out) :
    selectChars <+: upC out := by
  obtain ⟨q4, h1, rfl⟩ := clean_ok_iff.mp h
  exact normalizeSemi_selPre (extractSelect_ok h1).1

theorem clean_no_semi {q out : List Char} (h : clean_sql_query q = Except.ok out) :
    semi ∉ out := by
  obtain ⟨q4, h1, rfl⟩ := clean_ok_iff.mp h
  exact normalizeSemi_no_semi q4

theorem clean_no_backtick {q out : List Char} (h : clean_sql_query q = Except.ok out) :
    backtick ∉ out := by
  obtain ⟨q4, h1, rfl⟩ := clean_ok_iff.mp h
  intro hm
  exact preprocess_no_backtick q ((extractSelect_ok h1).2 backtick (normalizeSemi_subset hm))

/-! ### Fixpoint lemmas for re-sanitization -/

theorem rlcFuel_fix : ∀ (f : Nat) (l : List Char), hasSub ['-', '-'] l = false →
    rlcFuel f l = l := by
  intro f
  induction f with
  | zero => intro l _; rfl
  | succ f ih =>
    intro l hdd
    cases l with
    | nil => rfl
    | cons c rest =>
      rw [hasSub, Bool.or_eq_false_iff] at hdd
      rw [rlcFuel, if_neg ?hneg, ih rest hdd.2]
      case hneg =>
        rintro ⟨rfl, hh⟩
        cases rest with
        | nil => simp at hh
        | cons d rest2 =>
          simp only [List.head?_cons, Option.some.injEq] at hh
          subst hh
          simp [isPre] at hdd

theorem rbcFuel_fix : ∀ (f : Nat) (l : List Char), hasSub ['/', '*'] l = false →
    rbcFuel f l = l := by
  intro f
  induction f with
  | zero => intro l _; rfl
  | succ f ih =>
    intro l hbo
    cases l with
    | nil => rfl
    | cons c rest =>
      rw [hasSub, Bool.or_eq_false_iff] at hbo
      rw [rbcFuel, if_neg ?hneg, ih rest hbo.2]
      case hneg =>
        rintro ⟨rfl, hh⟩
        cases rest with
        | nil => simp at hh
        | cons d rest2 =>
          simp only [List.head?_cons, Option.some.injEq] at hh
          subst hh
          simp [isPre] at hbo

theorem preprocess_fix {l : List Char} (hdd : hasSub ['-', '-'] l = false)
    (hbo : hasSub ['/', '*'] l = false) (hbt : backtick ∉ l) : preprocess l = l := by
  rw [preprocess, removeLineComments, rlcFuel_fix _ _ hdd, removeBlockComments,
    rbcFuel_fix _ _ hbo]
  rw [List.filter_eq_self]
  intro c hc
  exact bne_iff_ne.mpr (fun hce => hbt (hce ▸ hc))

theorem stripL_of_selPre {l : List Char} (h : selectChars <+: upC l) : stripL l = l := by
  obtain ⟨a, r, rfl, ha⟩ := selPre_decomp h
  exact stripL_append_sel ha

/-! ### Lemmas for the join operation and the error classifier -/

theorem joinSep_within {t : List Char} {s : List Char} {L : List (List Char)} (h : t ∈ L) :
    t <:+: joinSep s L := by
  induction L with
  | nil => cases h
  | cons x rest ih =>
    cases rest with
    | nil =>
      rw [List.mem_singleton] at h
      subst h
      exact List.infix_refl _
    | cons y rest2 =>
      rw [joinSep]
      rcases List.mem_cons.mp h with he | hm
      · subst he
        refine List.IsPrefix.isInfix ?_
        exact ⟨s ++ joinSep s (y :: rest2), by simp [List.append_assoc]⟩
      · exact (ih hm).trans (List.suffix_append _ _).isInfix

theorem findRel_shape {msg name : List Char} (h : findRel msg = some name) :
    ∃ suf, suf <:+ msg ∧ matchRelAt suf = some name := by
  induction msg with
  | nil => simp [findRel] at h
  | cons c rest ih =>
    rw [findRel] at h
    cases hm : matchRelAt (c :: rest) with
    | some n =>
      rw [hm] at h
      cases h
      exact ⟨c :: rest, List.suffix_refl _, hm⟩
    | none =>
      rw [hm] at h
      obtain ⟨suf, h1, h2⟩ := ih h
      exact ⟨suf, h1.trans (List.suffix_cons c rest), h2⟩

theorem matchRelAt_parts {l name : List Char} (h : matchRelAt l = some name) :
    relOpen <+: l ∧ dneClose <:+: l := by
  simp only [matchRelAt] at h
  by_cases h1 : isPre relOpen l
  · rw [if_pos h1] at h
    have hpre : relOpen <+: l := (isPre_iff _ _).mp h1
    by_cases h2 : (l.drop relOpen.length).takeWhile isWordChar ≠ [] ∧
        isPre dneClose ((l.drop relOpen.length).drop
          ((l.drop relOpen.length).takeWhile isWordChar).length)
    · have hdne : dneClose <:+: l := by
        have hp : dneClose <+: ((l.drop relOpen.length).drop
            ((l.drop relOpen.length).takeWhile isWordChar).length) :=
          (isPre_iff _ _).mp h2.2
        have hs1 : ((l.drop relOpen.length).drop
            ((l.drop relOpen.length).takeWhile isWordChar).length) <:+ l.drop relOpen.length :=
          List.drop_suffix _ _
        have hs2 : l.drop relOpen.length <:+ l := List.drop_suffix _ _
        exact hp.isInfix.trans (hs1.isInfix.trans hs2.isInfix)
      exact ⟨hpre, hdne⟩
    · rw [if_neg h2] at h
      cases h
  · rw [if_neg h1] at h
    cases h

theorem findRel_gate {msg name : List Char} (h : findRel msg = some name) :
    hasSub (chars "relation") msg = true ∧ hasSub (chars "does not exist") msg = true := by
  obtain ⟨suf, hsuf, hm⟩ := findRel_shape h
  obtain ⟨hro, hdc⟩ := matchRelAt_parts hm
  constructor
  · rw [hasSub_iff]
    have h1 : chars "relation" <+: relOpen := ⟨[' ', '"'], by decide⟩
    exact (h1.trans hro).isInfix.trans hsuf.isInfix
  · rw [hasSub_iff]
    have h2 : chars "does not exist" <:+ dneClose := ⟨['"', ' '], by decide⟩
    exact (h2.isInfix.trans hdc).trans hsuf.isInfix

theorem getElemQ_one (r : List Val) : r[1]? = (r.drop 1).head? := by
  cases r with
  | nil => rfl
  | cons a as => cases as <;> simp

/-! ### Claim C1 -/

/-- C1 (corrected): for every raw candidate on which `main.py`'s
`clean_sql_query` succeeds, the returned text begins with SELECT
(case-insensitively, with no leading whitespace), contains no semicolon
(hence is a single statement) and contains no backtick.  The
no-comment-marker part of the original claim is false — deleting a block
comment can splice the surrounding characters into a new `--` marker that
survives in the output — and mere occurrence of SELECT does not guarantee
success (`SELECT` must start the trimmed text or be followed by
whitespace); see `c1_counterexample`. -/
theorem c1_sanitizer_postcondition :
    ∀ q out : List Char, clean_sql_query q = Except.ok out →
      selectChars <+: upC out ∧ semi ∉ out ∧ backtick ∉ out :=
  fun _ _ h => ⟨clean_selPre h, clean_no_semi h, clean_no_backtick h⟩

/-- Witness for C1: the theorem applied to a concrete successful run. -/
theorem c1_witness :
    selectChars <+: upC (chars "select * from users") ∧
      semi ∉ chars "select * from users" ∧ backtick ∉ chars "select * from users" :=
  c1_sanitizer_postcondition (chars "select * from users -- admin only")
    (chars "select * from users") rfl

/-- Counterexample for C1 as stated: the input contains SELECT (with
trailing commentary), yet the sanitizer's output still contains the `--`
comment marker spliced together by block-comment removal; and an input
containing SELECT not followed by whitespace raises instead of returning. -/
theorem c1_counterexample :
    clean_sql_query (chars "SELECT a -/*c*/- b") = Except.ok (chars "SELECT a -- b") ∧
      hasSub (chars "--") (chars "SELECT a -- b") = true ∧
      clean_sql_query (chars "xx SELECT") = Except.error SanErr.noValidSelect :=
  ⟨rfl, rfl, rfl⟩

/-! ### Claim C3 -/

/-- C3 (corrected for `main.py`, refuted for `app.py`): `main.py`'s
`clean_sql_query` truncates at the first remaining semicolon, never appends
one, and its output therefore contains no semicolon.  The `app.py` variant
of `clean_sql_query` instead appends a trailing semicolon and keeps
interior semicolons; see `c3_counterexample`. -/
theorem c3_no_semicolon_output :
    ∀ q out : List Char, clean_sql_query q = Except.ok out → semi ∉ out :=
  fun _ _ h => clean_no_semi h

/-- Witness for C3: a second statement after a semicolon is discarded. -/
theorem c3_witness : semi ∉ chars "select name from users" :=
  c3_no_semicolon_output
    (chars "Use this: select name from users; drop table users")
    (chars "select name from users") rfl

/-- Counterexample for C3 as stated about `app.py`'s `clean_sql_query`
(named as a source of the claim): it appends a semicolon to its output and
does not truncate at an interior semicolon. -/
theorem c3_counterexample :
    app_clean_sql_query (chars "SELECT 1") = Except.ok (chars "SELECT 1;") ∧
      semi ∈ chars "SELECT 1;" ∧
      app_clean_sql_query (chars "SELECT 1; DROP TABLE x") =
        Except.ok (chars "SELECT 1; DROP TABLE x;") :=
  ⟨rfl, by decide, rfl⟩

/-! ### Claim C5 -/

/-- C5 (corrected): when SELECT occurs nowhere in the candidate after
comment AND backtick removal, `clean_sql_query` fails with the
no-SELECT-found error (`ValueError("Only SELECT queries are allowed")`)
instead of returning query text.  The original claim's side condition
"after comment removal" is too weak: backtick removal can create a SELECT
that was not there after comment removal alone; see `c5_counterexample`. -/
theorem c5_no_select_failure :
    ∀ q : List Char, containsSelect (preprocess q) = false →
      clean_sql_query q = Except.error SanErr.noSelectFound := by
  intro q hq
  have h1 : startsSelect (strip (preprocess q)) = false := by
    cases hss : startsSelect (strip (preprocess q)) with
    | false => rfl
    | true =>
      exfalso
      have h4 : selectChars <:+: upC (preprocess q) :=
        ((isPre_iff _ _).mp hss).isInfix.trans
          ((strip_within (preprocess q)).map Char.toUpper)
      have h6 : containsSelect (preprocess q) = true :=
        (hasSub_iff selectChars (upC (preprocess q))).mpr h4
      rw [hq] at h6
      cases h6
  simp [clean_sql_query, extractSelect, h1, hq, Except.map]

/-- Witness for C5: a destructive statement with no SELECT anywhere is
rejected and never returned. -/
theorem c5_witness :
    clean_sql_query (chars "DROP TABLE projects") = Except.error SanErr.noSelectFound :=
  c5_no_select_failure (chars "DROP TABLE projects") rfl

/-- Counterexample for C5 as stated: in `SEL(backtick)ECT 1` the keyword
SELECT occurs nowhere after comment removal alone, yet the sanitizer
succeeds, because backtick removal creates the keyword. -/
theorem c5_counterexample :
    containsSelect (removeBlockComments (removeLineComments
        (chars "SEL" ++ [backtick] ++ chars "ECT 1"))) = false ∧
      clean_sql_query (chars "SEL" ++ [backtick] ++ chars "ECT 1") =
        Except.ok (chars "SELECT 1") :=
  ⟨rfl, rfl⟩

/-! ### Claim C6 -/

/-- C6 (corrected): re-sanitizing an output of `main.py`'s
`clean_sql_query` returns it unchanged provided the output contains no
`--`, no `/*`, and no trailing whitespace.  Unconditional idempotence is
false: dropping a trailing semicolon can leave trailing whitespace that a
second pass strips, and comment markers spliced together by comment
removal are removed by a second pass; see `c6_counterexample`. -/
theorem c6_idempotence_conditional :
    ∀ q out : List Char, clean_sql_query q = Except.ok out →
      hasSub ['-', '-'] out = false → hasSub ['/', '*'] out = false →
      stripR out = out → clean_sql_query out = Except.ok out := by
  intro q out h hdd hbo hsR
  have hsel := clean_selPre h
  have hsemi := clean_no_semi h
  have hbt := clean_no_backtick h
  have hpre : preprocess out = out := preprocess_fix hdd hbo hbt
  have hstrip : strip out = out := by rw [strip, stripL_of_selPre hsel, hsR]
  have hss : startsSelect (strip out) = true := by
    rw [hstrip]
    exact (isPre_iff _ _).mpr hsel
  have hex : extractSelect out = Except.ok out := by
    simp [extractSelect, hss]
  have hnorm : normalizeSemi out = out := by
    have hg : ¬ out.getLast? = some semi := fun hg => hsemi (List.mem_of_getLast?_eq_some hg)
    have hc : ¬ out.contains semi = true := fun hc => hsemi (List.elem_iff.mp hc)
    simp only [normalizeSemi, hstrip, if_neg hg, if_neg hc]
  simp only [clean_sql_query, hpre, hex, Except.map, hnorm]

/-- Witness for C6 at a concrete fixed point. -/
theorem c6_witness : clean_sql_query (chars "SELECT 1") = Except.ok (chars "SELECT 1") :=
  c6_idempotence_conditional (chars "SELECT 1") (chars "SELECT 1") rfl rfl rfl rfl

/-- Counterexample for C6 as stated: two concrete successful runs whose
outputs change under re-sanitization (trailing whitespace exposed by the
dropped trailing semicolon; a spliced `--` marker removed on the second
pass). -/
theorem c6_counterexample :
    clean_sql_query (chars "SELECT 1 ;") = Except.ok (chars "SELECT 1 ") ∧
      clean_sql_query (chars "SELECT 1 ") = Except.ok (chars "SELECT 1") ∧
      chars "SELECT 1 " ≠ chars "SELECT 1" ∧
      clean_sql_query (chars "SELECT a -/*c*/- b") = Except.ok (chars "SELECT a -- b") ∧
      clean_sql_query (chars "SELECT a -- b") = Except.ok (chars "SELECT a") :=
  ⟨rfl, rfl, by decide, rfl, rfl⟩

/-! ### Claim C2 -/

/-- C2 (corrected): `main.py`'s `execute_sql_query` independently re-checks,
case-insensitively, that the normalized text starts with SELECT — every text
it actually executes is SELECT-prefixed, and any text whose normalized form
is not SELECT-prefixed is rejected before execution.  The claim is false of
`db_utils.execute_sql_query` (also named as a source): that executor
performs no SELECT check at all; see `c2_counterexample`. -/
theorem c2_executor_select_recheck :
    (∀ q r : List Char, main_execute_sql_query q = Except.ok r → startsSelect r = true) ∧
      (∀ q : List Char, q ≠ [] → startsSelect (normalizeSemi q) = false →
        main_execute_sql_query q = Except.error ExecErr.rejectedStatement) := by
  constructor
  · intro q r h
    simp only [main_execute_sql_query] at h
    by_cases h0 : q = []
    · rw [if_pos h0] at h; cases h
    · rw [if_neg h0] at h
      by_cases h1 : startsSelect (normalizeSemi q)
      · rw [if_pos h1] at h
        cases h
        exact h1
      · rw [if_neg h1] at h
        cases h
  · intro q h0 h1
    simp only [main_execute_sql_query]
    rw [if_neg h0, if_neg ?hc]
    case hc => rw [h1]; exact Bool.false_ne_true

/-- Witness for C2: both parts of the theorem at concrete inputs. -/
theorem c2_witness :
    startsSelect (chars "SELECT 1") = true ∧
      main_execute_sql_query (chars "DELETE FROM projects") =
        Except.error ExecErr.rejectedStatement :=
  ⟨c2_executor_select_recheck.1 (chars "SELECT 1") (chars "SELECT 1") rfl,
    c2_executor_select_recheck.2 (chars "DELETE FROM projects") (by decide) rfl⟩

/-- Counterexample for C2 as stated: `db_utils.execute_sql_query` (one of
the claim's named sources) executes a non-SELECT statement without any
rejection. -/
theorem c2_counterexample :
    db_execute_sql_query (chars "DROP TABLE projects") =
      Except.ok ⟨chars "DROP TABLE projects", false, false⟩ := rfl

/-! ### Claim C4 -/

/-- C4 (confirmed): `db_utils.execute_sql_query` imposes no SELECT-only
restriction — any non-empty query that, after stripping and removing one
trailing semicolon, contains no semicolon is executed; and when the
executed text starts (case-insensitively) with INSERT, UPDATE or DELETE the
transaction is committed and the fetched rows are replaced by the
one-element row-count message. -/
theorem c4_db_executor_permissive :
    ∀ q : List Char, q ≠ [] → (dropTrailSemi (strip q)).contains semi = false →
      ∃ r : DbRun, db_execute_sql_query q = Except.ok r ∧
        r.sql = dropTrailSemi (strip q) ∧
        (isWriteQuery r.sql = true → r.commit = true ∧ r.rowcountMessage = true) := by
  intro q h0 hc
  refine ⟨⟨dropTrailSemi (strip q), isWriteQuery (dropTrailSemi (strip q)),
    isWriteQuery (dropTrailSemi (strip q))⟩, ?_, rfl, fun hw => ⟨hw, hw⟩⟩
  simp only [db_execute_sql_query]
  rw [if_neg h0, if_neg ?hcn]
  case hcn => rw [hc]; exact Bool.false_ne_true

/-- Witness for C4: a DELETE statement is executed, committed, and its
results are replaced by the row-count message. -/
theorem c4_witness :
    ∃ r : DbRun, db_execute_sql_query (chars "DELETE FROM projects WHERE id = 1") =
        Except.ok r ∧
      r.sql = dropTrailSemi (strip (chars "DELETE FROM projects WHERE id = 1")) ∧
      (isWriteQuery r.sql = true → r.commit = true ∧ r.rowcountMessage = true) :=
  c4_db_executor_permissive (chars "DELETE FROM projects WHERE id = 1") (by decide) rfl

/-! ### Claim C7 -/

/-- C7 (confirmed): `on_message` marks a result set chart-eligible exactly
when it has two columns, strictly more than one and at most fifteen rows,
and a numeric value in the second position of every row; the boundary row
counts behave as claimed (2 and 15 eligible, 1 and 16 not), a non-numeric
second column is never eligible, and a column count other than 2 is never
eligible. -/
theorem c7_chart_eligibility :
    (∀ rs : ResultSet, chartEligible rs = true ↔
        (rs.cols.length = 2 ∧ 1 < rs.rows.length ∧ rs.rows.length ≤ 15 ∧
          ∀ r ∈ rs.rows, ∃ v, r[1]? = some v ∧ isNumVal v = true)) ∧
      chartEligible ⟨[chars "name", chars "cnt"],
        List.replicate 2 [Val.txt (chars "a"), Val.num 3]⟩ = true ∧
      chartEligible ⟨[chars "name", chars "cnt"],
        List.replicate 15 [Val.txt (chars "a"), Val.num 3]⟩ = true ∧
      chartEligible ⟨[chars "name", chars "cnt"],
        List.replicate 1 [Val.txt (chars "a"), Val.num 3]⟩ = false ∧
      chartEligible ⟨[chars "name", chars "cnt"],
        List.replicate 16 [Val.txt (chars "a"), Val.num 3]⟩ = false ∧
      chartEligible ⟨[chars "name", chars "cnt"],
        List.replicate 3 [Val.txt (chars "a"), Val.txt (chars "b")]⟩ = false ∧
      chartEligible ⟨[chars "name"], List.replicate 3 [Val.num 1]⟩ = false ∧
      chartEligible ⟨[chars "a", chars "b", chars "c"],
        List.replicate 3 [Val.num 1, Val.num 2, Val.num 3]⟩ = false := by
  refine ⟨?_, by decide, by decide, by decide, by decide, by decide, by decide, by decide⟩
  intro rs
  rw [chartEligible]
  by_cases h0 : rs.rows.length = 0
  · rw [if_pos h0]
    simp [h0]
  · rw [if_neg h0]
    by_cases h1 : rs.cols.length = 2 && decide (1 < rs.rows.length) &&
        decide (rs.rows.length ≤ 15)
    · rw [if_pos h1]
      simp only [Bool.and_eq_true, decide_eq_true_eq] at h1
      rw [secondColNumeric, List.all_eq_true]
      constructor
      · intro hall
        refine ⟨h1.1.1, h1.1.2, h1.2, ?_⟩
        intro r hr
        have hv := hall r hr
        rw [getElemQ_one]
        cases hd : (r.drop 1).head? with
        | none => rw [hd] at hv; cases hv
        | some v =>
          rw [hd] at hv
          exact ⟨v, rfl, hv⟩
      · rintro ⟨-, -, -, hv⟩ r hr
        obtain ⟨v, hv1, hv2⟩ := hv r hr
        rw [getElemQ_one] at hv1
        rw [hv1]
        exact hv2
    · rw [if_neg h1]
      constructor
      · intro hfalse; cases hfalse
      · rintro ⟨hc2, hlt, hle, -⟩
        exact absurd (by simp [hc2, hlt, hle]) h1

/-! ### Claim C8 -/

/-- C8 (confirmed): when the execution-error text matches
`relation "<name>" does not exist`, the `process_query` handler replaces it
by `Table '<name>' does not exist. Available tables: <list>` (for a
non-empty live table list), a message that contains the missing name and
every live table name; any error text the pattern does not match is passed
through unmodified. -/
theorem c8_error_classification :
    ∀ (msg : List Char) (tables : List (List Char)),
      (findRel msg = none → classify_execution_error msg tables = msg) ∧
      (∀ name, findRel msg = some name → tables ≠ [] →
        classify_execution_error msg tables =
          chars "Table " ++ [squote] ++ name ++ [squote] ++ chars " does not exist. " ++
            chars "Available tables: " ++ joinSep (chars ", ") tables ∧
        name <:+: classify_execution_error msg tables ∧
        ∀ t ∈ tables, t <:+: classify_execution_error msg tables) := by
  intro msg tables
  constructor
  · intro hn
    simp only [classify_execution_error, hn]
    by_cases hg : hasSub (chars "relation") msg && hasSub (chars "does not exist") msg
    · rw [if_pos hg]
    · rw [if_neg hg]
  · intro name hs htne
    obtain ⟨hg1, hg2⟩ := findRel_gate hs
    have heq : classify_execution_error msg tables =
        chars "Table " ++ [squote] ++ name ++ [squote] ++ chars " does not exist. " ++
          chars "Available tables: " ++ joinSep (chars ", ") tables := by
      simp only [classify_execution_error, hs]
      rw [if_pos (by rw [hg1, hg2]; rfl), if_neg htne]
    refine ⟨heq, ?_, ?_⟩
    · rw [heq]
      refine ⟨chars "Table " ++ [squote], [squote] ++ chars " does not exist. " ++
        chars "Available tables: " ++ joinSep (chars ", ") tables, ?_⟩
      simp [List.append_assoc]
    · intro t ht
      rw [heq]
      exact (joinSep_within ht).trans (List.suffix_append _ _).isInfix

/-- Witness for C8 at the spec's own example: error text about relation
`foo` with live tables `bar` and `baz`. -/
theorem c8_witness :
    classify_execution_error (chars "relation \"foo\" does not exist")
        [chars "bar", chars "baz"] =
      chars "Table " ++ [squote] ++ chars "foo" ++ [squote] ++ chars " does not exist. " ++
        chars "Available tables: " ++ joinSep (chars ", ") [chars "bar", chars "baz"] ∧
      chars "foo" <:+: classify_execution_error (chars "relation \"foo\" does not exist")
        [chars "bar", chars "baz"] ∧
      ∀ t ∈ [chars "bar", chars "baz"],
        t <:+: classify_execution_error (chars "relation \"foo\" does not exist")
          [chars "bar", chars "baz"] :=
  (c8_error_classification (chars "relation \"foo\" does not exist")
    [chars "bar", chars "baz"]).2 (chars "foo") rfl (by decide)

/-! ### Claim C9 -/

/-- C9 (corrected): `db_utils.get_table_info` returns the explicit sentinel
`No tables found in the database.` whenever the column catalog query
returns no rows, and that sentinel is not the empty string; but `main.py`'s
`get_table_info` (also named as a source of the claim) returns the empty
string when the catalog lists no tables; see `c9_counterexample`. -/
theorem c9_no_tables_sentinel :
    ∀ fks : List FkRow,
      db_get_table_info [] fks = chars "No tables found in the database." ∧
        db_get_table_info [] fks ≠ [] := by
  intro fks
  constructor
  · rfl
  · intro h
    have h0 : db_get_table_info [] fks = chars "No tables found in the database." := rfl
    rw [h0] at h
    exact absurd h (by decide)

/-- Counterexample for C9 as stated: `main.py`'s `get_table_info` returns
the empty string, not a sentinel, on an empty catalog. -/
theorem c9_counterexample :
    main_get_table_info [] (fun _ => []) = ([] : List Char) := rfl

/-! ### Claim C10 -/

/-- C10 (confirmed): every table of the hidden set is omitted from the UI
listing `get_tables_and_columns`, while the schema text built by `main.py`'s
`get_table_info` contains a `CREATE TABLE` block for every catalog table,
hidden ones included — the filtering applies only to the UI listing. -/
theorem c10_hidden_table_asymmetry :
    ∀ (tables : List (List Char)) (colsF : List Char → List (List Char × List Char))
      (colsN : List Char → List (List Char)) (t : List Char), t ∈ hiddenTables →
        (∀ p ∈ get_tables_and_columns tables colsN, p.1 ≠ t) ∧
        (t ∈ tables →
          (chars "CREATE TABLE " ++ t) <:+: main_get_table_info tables colsF) := by
  intro tables colsF colsN t ht
  constructor
  · intro p hp
    simp only [get_tables_and_columns] at hp
    obtain ⟨u, hu, he⟩ := List.mem_filterMap.mp hp
    by_cases hh : u ∈ hiddenTables
    · rw [if_pos hh] at he
      cases he
    · rw [if_neg hh] at he
      cases he
      intro hpe
      apply hh
      have hut : u = t := hpe
      rw [hut]
      exact ht
  · intro htm
    have h1 : mainTableBlock colsF t <:+: main_get_table_info tables colsF :=
      joinSep_within (List.mem_map_of_mem _ htm)
    have h2 : (chars "CREATE TABLE " ++ t) <+: mainTableBlock colsF t := by
      refine ⟨chars " (" ++ ['\n'] ++ chars "  " ++
        joinSep (chars "," ++ ['\n'] ++ chars "  ")
          ((colsF t).map (fun p => p.1 ++ [' '] ++ p.2)) ++ ['\n'] ++ chars ");", ?_⟩
      simp [mainTableBlock, tableBlock, List.append_assoc]
    exact h2.isInfix.trans h1

/-- Witness for C10 at a concrete catalog: the hidden table `users` is
absent from the UI listing yet present in the generator schema text. -/
theorem c10_witness :
    (∀ p ∈ get_tables_and_columns [chars "users", chars "projects"]
        (fun _ => [chars "id"]), p.1 ≠ chars "users") ∧
      (chars "CREATE TABLE " ++ chars "users") <:+:
        main_get_table_info [chars "users", chars "projects"]
          (fun _ => [(chars "id", chars "integer")]) :=
  ⟨(c10_hidden_table_asymmetry [chars "users", chars "projects"]
      (fun _ => [(chars "id", chars "integer")]) (fun _ => [chars "id"])
      (chars "users") (by decide)).1,
    (c10_hidden_table_asymmetry [chars "users", chars "projects"]
      (fun _ => [(chars "id", chars "integer")]) (fun _ => [chars "id"])
      (chars "users") (by decide)).2 (by decide)⟩
